import Mathlib

/-!
Verification of the policy-engine OpenAPI document transformation
(`src/policy-engine/src/openapi.rs`): prefix rewriting of route paths,
injection of mandatory query parameters into the `/graph` route, and the
per-request handler `index` orchestrating them.

The `openapiv3` crate types are embedded shallowly: `IndexMap` becomes an
association list (key uniqueness is the map invariant, taken as a
hypothesis where needed), the `ReferenceOr` indirection and the
`Parameter` location discrimination become inductives, and only the
fields the code reads or writes are kept, with an opaque `rest` field for
the untouched remainder.  Rust's `HashSet<String>` iteration becomes a
`List String`; panics become `Option.none`; `error!` logging becomes an
explicitly returned list of messages.
-/

/-- The two-variant indirection `openapiv3::ReferenceOr`. -/
inductive ReferenceOr (α : Type) where
  | Reference (ref : String)
  | Item (item : α)
  deriving DecidableEq

/-- Type descriptor of a parameter schema; the code only ever builds the
`string` kind. -/
inductive SchemaKind where
  | string
  | other (s : String)
  deriving DecidableEq

/-- Shared payload of `openapiv3::Parameter` (the fields the code touches). -/
structure ParameterData where
  name : String
  required : Bool
  schema : SchemaKind
  deriving DecidableEq

/-- `openapiv3::Parameter`, discriminated by location. -/
inductive Parameter where
  | Query (parameter_data : ParameterData)
  | Header (parameter_data : ParameterData)
  | Path (parameter_data : ParameterData)
  | Cookie (parameter_data : ParameterData)
  deriving DecidableEq

/-- `openapiv3::PathItem`: the parameter list the code mutates, plus an
opaque remainder (operations, metadata) it never touches. -/
structure PathItem where
  parameters : List (ReferenceOr Parameter)
  rest : String
  deriving DecidableEq

/-- `openapiv3::Paths`: the route table (`IndexMap` as an association
list) plus the extensions map the code never touches. -/
structure Paths where
  paths : List (String × ReferenceOr PathItem)
  extensions : List (String × String)
  deriving DecidableEq

/-- The slice of `openapiv3::OpenAPI` the code touches: its `paths`,
plus an opaque remainder for the metadata left alone. -/
structure OpenAPI where
  paths : Paths
  meta : String
  deriving DecidableEq

/-- Minimal JSON values, enough for the hardcoded parameter template. -/
inductive Json where
  | str (s : String)
  | bool (b : Bool)
  | obj (fields : List (String × Json))

/-- Field lookup in a JSON object. -/
def jsonLookup (fields : List (String × Json)) (k : String) : Option Json :=
  (fields.find? (fun kv => kv.1 = k)).map Prod.snd

/-- Deserialization of a schema object, as serde reads the `type` field. -/
def parseSchemaKind : Json → Option SchemaKind
  | Json.obj fields =>
    match jsonLookup fields "type" with
    | some (Json.str "string") => some SchemaKind.string
    | some (Json.str s) => some (SchemaKind.other s)
    | _ => none
  | _ => none

/-- Deserialization of the shared parameter payload: `name` is mandatory,
`required` defaults to `false`, `schema` is parsed as a schema object. -/
def parseParameterData (fields : List (String × Json)) : Option ParameterData :=
  match jsonLookup fields "name" with
  | some (Json.str n) =>
    let req : Bool :=
      match jsonLookup fields "required" with
      | some (Json.bool b) => b
      | _ => false
    match jsonLookup fields "schema" with
    | some sj =>
      (parseSchemaKind sj).map (fun sk =>
        { name := n, required := req, schema := sk })
    | none => none
  | _ => none

/-- Deserialization of `openapiv3::Parameter`, discriminated by the `in`
field as serde does. -/
def parseParameter : Json → Option Parameter
  | Json.obj fields =>
    match jsonLookup fields "in" with
    | some (Json.str "query") => (parseParameterData fields).map Parameter.Query
    | some (Json.str "header") => (parseParameterData fields).map Parameter.Header
    | some (Json.str "path") => (parseParameterData fields).map Parameter.Path
    | some (Json.str "cookie") => (parseParameterData fields).map Parameter.Cookie
    | _ => none
  | _ => none

/-- The hardcoded `PARAM_TEMPLATE` JSON literal of `add_mandatory_params`,
transcribed field by field. -/
def PARAM_TEMPLATE : Json :=
  Json.obj
    [ ("in", Json.str "query"),
      ("name", Json.str "TEMPLATE"),
      ("required", Json.bool true),
      ("schema", Json.obj [("type", Json.str "string")]) ]

/-- `IndexMap::insert` on the association-list model: replace the value in
place when the key is present, append otherwise. -/
def insertKV {α : Type} : List (String × α) → String → α → List (String × α)
  | [], k, v => [(k, v)]
  | kv :: tail, k, v =>
    if kv.1 = k then (k, v) :: tail else kv :: insertKV tail k v

/-- `collect()` into an `IndexMap`: sequential inserts into an empty map. -/
def collectKV {α : Type} (l : List (String × α)) : List (String × α) :=
  l.foldl (fun m kv => insertKV m kv.1 kv.2) []

/-- `IndexMap::get` on the association-list model. -/
def lookupKV {α : Type} : List (String × α) → String → Option α
  | [], _ => none
  | kv :: tail, k => if kv.1 = k then some kv.2 else lookupKV tail k

/-- Write-back of a `get_mut` in-place mutation: replace the value at the
first occurrence of the key, identity when the key is absent. -/
def updateKV {α : Type} : List (String × α) → String → α → List (String × α)
  | [], _, _ => []
  | kv :: tail, k, v =>
    if kv.1 = k then (k, v) :: tail else kv :: updateKV tail k v

/-- `rewrite_paths`: clone the table, then rebuild the `paths` map with
every key prefixed (the extensions of the clone are kept). -/
def rewrite_paths (paths : Paths) (pfx : String) : Paths :=
  let new_paths := paths
  { new_paths with
    paths := collectKV (paths.paths.map (fun kv => (pfx ++ kv.1, kv.2))) }

/-- One iteration of the loop in `add_mandatory_params`: clone the
template, set the name when it is the Query variant, skip otherwise. -/
def injectOne (template : Parameter) (key : String) : Option Parameter :=
  match template with
  | Parameter.Query p => some (Parameter.Query { p with name := key })
  | _ => none

/-- `add_mandatory_params` on a route entry.  `none` models the panic on a
failed template deserialization; the returned list of strings collects the
`error!` log messages.  On an Item, each name in `reqs` for which the
template clone is the Query variant is appended as a parameter; on a
Reference nothing is changed and an error is logged. -/
def add_mandatory_params (path : ReferenceOr PathItem) (reqs : List String) :
    Option (ReferenceOr PathItem × List String) :=
  match path with
  | ReferenceOr.Item item =>
    match parseParameter PARAM_TEMPLATE with
    | none => none
    | some template =>
      let result := reqs.foldl
        (fun (acc : PathItem × List String) key =>
          match injectOne template key with
          | some data =>
            ({ acc.1 with
               parameters := acc.1.parameters ++ [ReferenceOr.Item data] },
             acc.2)
          | none => (acc.1, acc.2 ++ ["non-query parameters not allowed"]))
        (item, [])
      some (ReferenceOr.Item result.1, result.2)
  | ReferenceOr.Reference r =>
    some (ReferenceOr.Reference r, ["reference manipulation for paths not allowed"])

/-- The injection step of the handler: `get_mut` on the route key, call
`add_mandatory_params`, write the mutated entry back.  Absent key: no-op.
`none` propagates the panic case of `add_mandatory_params`. -/
def inject (doc : OpenAPI) (routeKey : String) (reqs : List String) :
    Option (OpenAPI × List String) :=
  match lookupKV doc.paths.paths routeKey with
  | none => some (doc, [])
  | some entry =>
    match add_mandatory_params entry reqs with
    | none => none
    | some (entry', errs) =>
      some
        ({ doc with
           paths := { doc.paths with
                      paths := updateKV doc.paths.paths routeKey entry' } },
         errs)

/-- The document transformation of the handler body: inject the mandatory
parameters at `/graph`, then prefix every path. -/
def transformed (spec0 : OpenAPI) (pfx : String) (mandatory : List String) :
    Option OpenAPI :=
  match inject spec0 "/graph" mandatory with
  | none => none
  | some (spec1, _) => some { spec1 with paths := rewrite_paths spec1.paths pfx }

/-- HTTP responses the handler produces. -/
inductive HttpResponse where
  | Ok (body : String)
  | InternalServerError (body : String)
  deriving DecidableEq

/-- The request handler `index`.  The parse of the embedded template asset
and the serde serialization are external collaborators, passed in as the
`parse` result and the `serialize` function; `none` models a panic on the
request path. -/
def index (parse : Except String OpenAPI)
    (serialize : OpenAPI → Except String String)
    (pfx : String) (mandatory : List String) : Option HttpResponse :=
  match parse with
  | Except.error e => some (HttpResponse.InternalServerError e)
  | Except.ok spec0 =>
    match transformed spec0 pfx mandatory with
    | none => none
    | some spec2 =>
      match serialize spec2 with
      | Except.ok body => some (HttpResponse.Ok body)
      | Except.error e => some (HttpResponse.InternalServerError e)

/-- The parameter value injected for a given name: required Query
parameter with a string schema. -/
def mkParam (n : String) : ReferenceOr Parameter :=
  ReferenceOr.Item
    (Parameter.Query { name := n, required := true, schema := SchemaKind.string })

/-- The value the hardcoded template deserializes to. -/
def templateParam : Parameter :=
  Parameter.Query { name := "TEMPLATE", required := true, schema := SchemaKind.string }

theorem parse_template : parseParameter PARAM_TEMPLATE = some templateParam := by
  decide

theorem injectOne_template (k : String) :
    injectOne templateParam k =
      some (Parameter.Query
        { name := k, required := true, schema := SchemaKind.string }) := rfl

theorem amp_foldl (reqs : List String) :
    ∀ acc : PathItem × List String,
      reqs.foldl
        (fun acc key =>
          match injectOne templateParam key with
          | some data =>
            ({ acc.1 with
               parameters := acc.1.parameters ++ [ReferenceOr.Item data] },
             acc.2)
          | none => (acc.1, acc.2 ++ ["non-query parameters not allowed"]))
        acc =
      ({ acc.1 with parameters := acc.1.parameters ++ reqs.map mkParam }, acc.2) := by
  induction reqs with
  | nil => intro acc; simp
  | cons k tl ih =>
    intro acc
    rw [List.foldl_cons, ih]
    simp [injectOne, templateParam, mkParam]

theorem add_mandatory_params_item (item : PathItem) (reqs : List String) :
    add_mandatory_params (ReferenceOr.Item item) reqs =
      some (ReferenceOr.Item
        { item with parameters := item.parameters ++ reqs.map mkParam }, []) := by
  unfold add_mandatory_params
  rw [parse_template]
  exact congrArg (fun r : PathItem × List String =>
    some (ReferenceOr.Item r.1, r.2)) (amp_foldl reqs (item, []))

theorem add_mandatory_params_ref (r : String) (reqs : List String) :
    add_mandatory_params (ReferenceOr.Reference r) reqs =
      some (ReferenceOr.Reference r,
        ["reference manipulation for paths not allowed"]) := rfl

theorem lookupKV_update {α : Type} (m : List (String × α)) (k : String) (v0 v : α)
    (h : lookupKV m k = some v0) : lookupKV (updateKV m k v) k = some v := by
  induction m with
  | nil => simp [lookupKV] at h
  | cons kv tail ih =>
    by_cases hk : kv.1 = k
    · simp [lookupKV, updateKV, hk]
    · simp only [lookupKV, updateKV, if_neg hk] at h ⊢
      exact ih h

theorem updateKV_self {α : Type} (m : List (String × α)) (k : String) (v : α)
    (h : lookupKV m k = some v) : updateKV m k v = m := by
  induction m with
  | nil => rfl
  | cons kv tail ih =>
    obtain ⟨k1, v1⟩ := kv
    by_cases hk : k1 = k
    · simp only [lookupKV, if_pos hk] at h
      simp only [updateKV, if_pos hk]
      simp at h
      rw [hk, h]
    · simp only [lookupKV, if_neg hk] at h
      simp only [updateKV, if_neg hk]
      rw [ih h]

theorem updateKV_keys {α : Type} (m : List (String × α)) (k : String) (v : α) :
    (updateKV m k v).map Prod.fst = m.map Prod.fst := by
  induction m with
  | nil => rfl
  | cons kv tail ih =>
    by_cases hk : kv.1 = k
    · simp [updateKV, if_pos hk, hk]
    · simp [updateKV, if_neg hk, ih]

theorem insertKV_not_mem {α : Type} (m : List (String × α)) (k : String) (v : α)
    (h : k ∉ m.map Prod.fst) : insertKV m k v = m ++ [(k, v)] := by
  induction m with
  | nil => rfl
  | cons kv tail ih =>
    simp only [List.map_cons, List.mem_cons] at h
    push_neg at h
    have hne : ¬ kv.1 = k := fun he => h.1 he.symm
    simp only [insertKV, if_neg hne, List.cons_append]
    rw [ih h.2]

theorem collectKV_go {α : Type} (l : List (String × α)) :
    ∀ m : List (String × α),
      (m.map Prod.fst ++ l.map Prod.fst).Nodup →
      l.foldl (fun m kv => insertKV m kv.1 kv.2) m = m ++ l := by
  induction l with
  | nil => intro m _; simp
  | cons kv tail ih =>
    intro m h
    simp only [List.map_cons] at h
    have hdis := (List.nodup_append.mp h).2.2
    have hk : kv.1 ∉ m.map Prod.fst := by
      intro hmem
      exact hdis hmem (List.mem_cons_self _ _)
    rw [List.foldl_cons, insertKV_not_mem m kv.1 kv.2 hk]
    rw [ih (m ++ [(kv.1, kv.2)]) (by simpa [List.append_assoc] using h)]
    simp

theorem collectKV_eq {α : Type} (l : List (String × α))
    (h : (l.map Prod.fst).Nodup) : collectKV l = l := by
  have hgo := collectKV_go l [] (by simpa using h)
  simpa [collectKV] using hgo

theorem prefix_append_injective (p : String) :
    Function.Injective (fun s : String => p ++ s) := by
  intro a b hab
  apply String.ext
  have hd : (p ++ a).data = (p ++ b).data := congrArg String.data hab
  rw [String.data_append, String.data_append] at hd
  exact List.append_cancel_left hd

theorem mkParam_injective : Function.Injective mkParam := by
  intro a b hab
  simpa [mkParam] using hab

theorem inject_eq_absent (doc : OpenAPI) (E : String) (S : List String)
    (hE : lookupKV doc.paths.paths E = none) :
    inject doc E S = some (doc, []) := by
  unfold inject
  rw [hE]

theorem inject_eq_item (doc : OpenAPI) (E : String) (item : PathItem)
    (S : List String)
    (hE : lookupKV doc.paths.paths E = some (ReferenceOr.Item item)) :
    inject doc E S =
      some
        ({ doc with
           paths := { doc.paths with
                      paths := updateKV doc.paths.paths E
                        (ReferenceOr.Item
                          { item with
                            parameters := item.parameters ++ S.map mkParam }) } },
         []) := by
  unfold inject
  simp only [hE, add_mandatory_params_item]

theorem inject_eq_ref (doc : OpenAPI) (E : String) (r : String)
    (S : List String)
    (hE : lookupKV doc.paths.paths E = some (ReferenceOr.Reference r)) :
    inject doc E S =
      some (doc, ["reference manipulation for paths not allowed"]) := by
  unfold inject
  simp only [hE, add_mandatory_params_ref]
  rw [updateKV_self _ _ _ hE]

theorem inject_total (doc : OpenAPI) (E : String) (S : List String) :
    ∃ res, inject doc E S = some res := by
  cases hE : lookupKV doc.paths.paths E with
  | none => exact ⟨_, inject_eq_absent doc E S hE⟩
  | some entry =>
    cases entry with
    | Item item => exact ⟨_, inject_eq_item doc E item S hE⟩
    | Reference r => exact ⟨_, inject_eq_ref doc E r S hE⟩

theorem transformed_total (spec0 : OpenAPI) (pfx : String) (reqs : List String) :
    ∃ doc, transformed spec0 pfx reqs = some doc := by
  obtain ⟨⟨doc1, errs⟩, h⟩ := inject_total spec0 "/graph" reqs
  refine ⟨{ doc1 with paths := rewrite_paths doc1.paths pfx }, ?_⟩
  unfold transformed
  rw [h]

/-- Route entries considered equal up to the order of an Item's parameter
list. -/
def entriesMatchUpToParamOrder : ReferenceOr PathItem → ReferenceOr PathItem → Prop
  | ReferenceOr.Reference a, ReferenceOr.Reference b => a = b
  | ReferenceOr.Item a, ReferenceOr.Item b =>
      a.parameters.Perm b.parameters ∧ a.rest = b.rest
  | _, _ => False

theorem entriesMatch_refl (e : ReferenceOr PathItem) :
    entriesMatchUpToParamOrder e e := by
  cases e with
  | Reference a => exact rfl
  | Item a => exact ⟨List.Perm.refl _, rfl⟩

/-- Route tables pairwise equal on keys with entries equal up to parameter
order. -/
def routesMatchUpToParamOrder
    (m1 m2 : List (String × ReferenceOr PathItem)) : Prop :=
  List.Forall₂ (fun a b => a.1 = b.1 ∧ entriesMatchUpToParamOrder a.2 b.2) m1 m2

theorem routesMatch_refl (m : List (String × ReferenceOr PathItem)) :
    routesMatchUpToParamOrder m m :=
  List.forall₂_same.mpr (fun x _ => ⟨rfl, entriesMatch_refl x.2⟩)

theorem routesMatch_updateKV (m : List (String × ReferenceOr PathItem))
    (k : String) (v1 v2 : ReferenceOr PathItem)
    (hv : entriesMatchUpToParamOrder v1 v2) :
    routesMatchUpToParamOrder (updateKV m k v1) (updateKV m k v2) := by
  induction m with
  | nil => exact List.Forall₂.nil
  | cons kv tail ih =>
    by_cases hk : kv.1 = k
    · simp only [updateKV, if_pos hk]
      exact List.Forall₂.cons ⟨rfl, hv⟩ (routesMatch_refl tail)
    · simp only [updateKV, if_neg hk]
      exact List.Forall₂.cons ⟨rfl, entriesMatch_refl kv.2⟩ ih

/-- Sample route table used by concrete witnesses. -/
def sampleTable : Paths :=
  { paths :=
      [ ("/graph", ReferenceOr.Item { parameters := [mkParam "q"], rest := "ops" }),
        ("/other", ReferenceOr.Reference "shared") ],
    extensions := [("x-k", "x-v")] }

/-- Sample document used by concrete witnesses. -/
def sampleDoc : OpenAPI := { paths := sampleTable, meta := "info" }

/-- Claim C1: for every route table T (with the IndexMap invariant of
unique keys) and prefix string p, rewrite_paths returns a table whose key
list is exactly the original key list with p prepended to each key — hence
the same number of entries, no merges, no drops, no key prefixed twice —
with every entry value carried over unchanged; the input table, a pure
value in this embedding, is left unmodified by construction. -/
theorem rewrite_paths_correct (T : Paths) (p : String)
    (h : (T.paths.map Prod.fst).Nodup) :
    (rewrite_paths T p).paths.map Prod.fst
        = (T.paths.map Prod.fst).map (fun k => p ++ k)
      ∧ (rewrite_paths T p).paths.length = T.paths.length
      ∧ (rewrite_paths T p).paths.map Prod.snd = T.paths.map Prod.snd
      ∧ ((rewrite_paths T p).paths.map Prod.fst).Nodup := by
  have hmap : (T.paths.map (fun kv => (p ++ kv.1, kv.2))).map Prod.fst
      = (T.paths.map Prod.fst).map (fun k => p ++ k) := by
    rw [List.map_map, List.map_map]
    rfl
  have hnodup :
      ((T.paths.map (fun kv => (p ++ kv.1, kv.2))).map Prod.fst).Nodup := by
    rw [hmap]
    exact h.map (prefix_append_injective p)
  have hp : (rewrite_paths T p).paths
      = T.paths.map (fun kv => (p ++ kv.1, kv.2)) := collectKV_eq _ hnodup
  refine ⟨?_, ?_, ?_, ?_⟩
  · rw [hp, hmap]
  · rw [hp, List.length_map]
  · rw [hp, List.map_map]
    rfl
  · rw [hp]
    exact hnodup

/-- Witness for C1 at a concrete two-entry table. -/
theorem rewrite_paths_correct_witness :
    (sampleTable.paths.map Prod.fst).Nodup
      ∧ ((rewrite_paths sampleTable "/pre").paths.map Prod.fst
            = (sampleTable.paths.map Prod.fst).map (fun k => "/pre" ++ k)
          ∧ (rewrite_paths sampleTable "/pre").paths.length
              = sampleTable.paths.length
          ∧ (rewrite_paths sampleTable "/pre").paths.map Prod.snd
              = sampleTable.paths.map Prod.snd
          ∧ ((rewrite_paths sampleTable "/pre").paths.map Prod.fst).Nodup) :=
  ⟨by decide, rewrite_paths_correct sampleTable "/pre" (by decide)⟩

/-- Claim C2: on a route table holding a concrete Item at key E and a
duplicate-free set S of names, inject yields the document where the
Item's parameter list is the old list (pre-existing parameters preserved
unchanged, in place) followed by, for each name in S, exactly one new
required Query parameter with that name and a string schema. -/
theorem inject_item_correct (doc : OpenAPI) (E : String) (item : PathItem)
    (S : List String) (hS : S.Nodup)
    (hE : lookupKV doc.paths.paths E = some (ReferenceOr.Item item)) :
    inject doc E S =
        some
          ({ doc with
             paths := { doc.paths with
                        paths := updateKV doc.paths.paths E
                          (ReferenceOr.Item
                            { item with
                              parameters := item.parameters ++ S.map mkParam }) } },
           [])
      ∧ ∀ n ∈ S, (S.map mkParam).count (mkParam n) = 1 := by
  refine ⟨inject_eq_item doc E item S hE, ?_⟩
  intro n hn
  rw [List.count_map_of_injective _ mkParam mkParam_injective]
  exact List.count_eq_one_of_mem hS hn

/-- Witness for C2 at a concrete document and a two-name set. -/
theorem inject_item_correct_witness :
    (["m1", "m2"] : List String).Nodup
      ∧ lookupKV sampleDoc.paths.paths "/graph"
          = some (ReferenceOr.Item { parameters := [mkParam "q"], rest := "ops" })
      ∧ (inject sampleDoc "/graph" ["m1", "m2"] =
            some
              ({ sampleDoc with
                 paths := { sampleDoc.paths with
                            paths := updateKV sampleDoc.paths.paths "/graph"
                              (ReferenceOr.Item
                                { parameters :=
                                    [mkParam "q"] ++ ["m1", "m2"].map mkParam,
                                  rest := "ops" }) } },
               [])
          ∧ ∀ n ∈ (["m1", "m2"] : List String),
              ((["m1", "m2"] : List String).map mkParam).count (mkParam n) = 1) :=
  ⟨by decide, by decide,
    inject_item_correct sampleDoc "/graph"
      { parameters := [mkParam "q"], rest := "ops" } ["m1", "m2"]
      (by decide) (by decide)⟩

/-- Claim C4: injection is not idempotent.  Calling inject twice on the
same working document with the same duplicate-free set S (whose injected
parameters are fresh for the Item) leaves the targeted Item with the new
parameters appended twice, hence exactly two Query parameters per name in
S; duplicates are not deduplicated. -/
theorem inject_twice_duplicates (doc : OpenAPI) (E : String) (item : PathItem)
    (S : List String) (hS : S.Nodup)
    (hE : lookupKV doc.paths.paths E = some (ReferenceOr.Item item))
    (hfresh : ∀ n ∈ S, mkParam n ∉ item.parameters) :
    ∃ doc1 doc2 item2,
      inject doc E S = some (doc1, [])
        ∧ inject doc1 E S = some (doc2, [])
        ∧ lookupKV doc2.paths.paths E = some (ReferenceOr.Item item2)
        ∧ item2.parameters = item.parameters ++ S.map mkParam ++ S.map mkParam
        ∧ ∀ n ∈ S, item2.parameters.count (mkParam n) = 2 := by
  have h1 := inject_eq_item doc E item S hE
  have hlook1 :
      lookupKV
          (updateKV doc.paths.paths E
            (ReferenceOr.Item
              { item with parameters := item.parameters ++ S.map mkParam }))
          E
        = some (ReferenceOr.Item
            { item with parameters := item.parameters ++ S.map mkParam }) :=
    lookupKV_update _ _ _ _ hE
  have h2 := inject_eq_item
    { doc with
      paths := { doc.paths with
                 paths := updateKV doc.paths.paths E
                   (ReferenceOr.Item
                     { item with
                       parameters := item.parameters ++ S.map mkParam }) } }
    E { item with parameters := item.parameters ++ S.map mkParam } S hlook1
  have hlook2 := lookupKV_update _ E
    (ReferenceOr.Item { item with parameters := item.parameters ++ S.map mkParam })
    (ReferenceOr.Item
      { item with
        parameters := (item.parameters ++ S.map mkParam) ++ S.map mkParam })
    hlook1
  refine ⟨_, _, _, h1, h2, hlook2, rfl, ?_⟩
  intro n hn
  have h0 : item.parameters.count (mkParam n) = 0 :=
    List.count_eq_zero_of_not_mem (hfresh n hn)
  have hone : (S.map mkParam).count (mkParam n) = 1 := by
    rw [List.count_map_of_injective _ mkParam mkParam_injective]
    exact List.count_eq_one_of_mem hS hn
  simp [List.count_append, h0, hone]

/-- Witness for C4 at a concrete document and a one-name set. -/
theorem inject_twice_duplicates_witness :
    (["m1"] : List String).Nodup
      ∧ lookupKV sampleDoc.paths.paths "/graph"
          = some (ReferenceOr.Item { parameters := [mkParam "q"], rest := "ops" })
      ∧ (∀ n ∈ (["m1"] : List String),
          mkParam n ∉ ([mkParam "q"] : List (ReferenceOr Parameter)))
      ∧ ∃ doc1 doc2 item2,
          inject sampleDoc "/graph" ["m1"] = some (doc1, [])
            ∧ inject doc1 "/graph" ["m1"] = some (doc2, [])
            ∧ lookupKV doc2.paths.paths "/graph" = some (ReferenceOr.Item item2)
            ∧ item2.parameters
                = [mkParam "q"] ++ ["m1"].map mkParam ++ ["m1"].map mkParam
            ∧ ∀ n ∈ (["m1"] : List String),
                item2.parameters.count (mkParam n) = 2 :=
  ⟨by decide, by decide, by decide,
    inject_twice_duplicates sampleDoc "/graph"
      { parameters := [mkParam "q"], rest := "ops" } ["m1"]
      (by decide) (by decide) (by decide)⟩

/-- Claim C5: when the designated route key is absent from the route
table, injection is a no-op that succeeds: the document (hence its key
set, every entry and every parameter list) is returned unchanged and no
error message is produced. -/
theorem inject_absent_noop (doc : OpenAPI) (E : String) (S : List String)
    (hE : lookupKV doc.paths.paths E = none) :
    inject doc E S = some (doc, []) :=
  inject_eq_absent doc E S hE

/-- Witness for C5 at a concrete document and an absent key. -/
theorem inject_absent_noop_witness :
    lookupKV sampleDoc.paths.paths "/missing" = none
      ∧ inject sampleDoc "/missing" ["m1"] = some (sampleDoc, []) :=
  ⟨by decide, inject_absent_noop sampleDoc "/missing" ["m1"] (by decide)⟩

/-- Claim C6: when the designated route key maps to a Reference entry,
injection leaves the whole document unchanged, records the recoverable
error message, and still succeeds (no panic, no failure). -/
theorem inject_reference_tolerant (doc : OpenAPI) (E : String) (r : String)
    (S : List String)
    (hE : lookupKV doc.paths.paths E = some (ReferenceOr.Reference r)) :
    inject doc E S =
      some (doc, ["reference manipulation for paths not allowed"]) :=
  inject_eq_ref doc E r S hE

/-- Witness for C6 at a concrete document whose entry is a Reference. -/
theorem inject_reference_tolerant_witness :
    lookupKV sampleDoc.paths.paths "/other"
        = some (ReferenceOr.Reference "shared")
      ∧ inject sampleDoc "/other" ["m1"] =
          some (sampleDoc, ["reference manipulation for paths not allowed"]) :=
  ⟨by decide, inject_reference_tolerant sampleDoc "/other" "shared" ["m1"] (by decide)⟩

/-- Claim C7: the handler always returns a response (no panic and no
process termination on the request path): a parse failure of the template
yields an internal-error response carrying the diagnostic, a serialize
failure of the transformed document yields an internal-error response
carrying the diagnostic, and otherwise the response is Ok with the
serialized body — so the status is determined solely by the parse and
serialize outcomes, never by structural mismatches inside injection. -/
theorem index_failure_policy (parse : Except String OpenAPI)
    (ser : OpenAPI → Except String String) (pfx : String)
    (reqs : List String) :
    ∃ r, index parse ser pfx reqs = some r
      ∧ ((∃ e, parse = Except.error e
            ∧ r = HttpResponse.InternalServerError e)
        ∨ (∃ spec0 doc e, parse = Except.ok spec0
            ∧ transformed spec0 pfx reqs = some doc
            ∧ ser doc = Except.error e
            ∧ r = HttpResponse.InternalServerError e)
        ∨ (∃ spec0 doc body, parse = Except.ok spec0
            ∧ transformed spec0 pfx reqs = some doc
            ∧ ser doc = Except.ok body
            ∧ r = HttpResponse.Ok body)) := by
  cases parse with
  | error e =>
    exact ⟨HttpResponse.InternalServerError e, rfl, Or.inl ⟨e, rfl, rfl⟩⟩
  | ok spec0 =>
    obtain ⟨doc, hdoc⟩ := transformed_total spec0 pfx reqs
    cases hser : ser doc with
    | ok body =>
      refine ⟨HttpResponse.Ok body, ?_,
        Or.inr (Or.inr ⟨spec0, doc, body, rfl, hdoc, hser, rfl⟩)⟩
      unfold index
      simp only [hdoc, hser]
    | error e =>
      refine ⟨HttpResponse.InternalServerError e, ?_,
        Or.inr (Or.inl ⟨spec0, doc, e, rfl, hdoc, hser, rfl⟩)⟩
      unfold index
      simp only [hdoc, hser]

/-- Claim C8: the outcome of injection depends only on the contents of the
mandatory set, not on its iteration order: for two iteration orders of the
same set, both runs succeed with the same logged errors and produce route
tables with identical keys whose entries agree up to the order of their
parameter lists. -/
theorem inject_order_irrelevant (doc : OpenAPI) (E : String)
    (reqs1 reqs2 : List String) (hp : reqs1.Perm reqs2) :
    ∃ d1 errs1 d2 errs2,
      inject doc E reqs1 = some (d1, errs1)
        ∧ inject doc E reqs2 = some (d2, errs2)
        ∧ errs1 = errs2
        ∧ routesMatchUpToParamOrder d1.paths.paths d2.paths.paths := by
  cases hE : lookupKV doc.paths.paths E with
  | none =>
    exact ⟨doc, [], doc, [], inject_eq_absent doc E reqs1 hE,
      inject_eq_absent doc E reqs2 hE, rfl, routesMatch_refl _⟩
  | some entry =>
    cases entry with
    | Reference r =>
      exact ⟨doc, _, doc, _, inject_eq_ref doc E r reqs1 hE,
        inject_eq_ref doc E r reqs2 hE, rfl, routesMatch_refl _⟩
    | Item item =>
      refine ⟨_, [], _, [], inject_eq_item doc E item reqs1 hE,
        inject_eq_item doc E item reqs2 hE, rfl, ?_⟩
      exact routesMatch_updateKV _ _ _ _
        ⟨List.Perm.append_left _ (hp.map mkParam), rfl⟩

/-- Witness for C8: the same two-name set in its two iteration orders. -/
theorem inject_order_irrelevant_witness :
    (["m1", "m2"] : List String).Perm ["m2", "m1"]
      ∧ ∃ d1 errs1 d2 errs2,
          inject sampleDoc "/graph" ["m1", "m2"] = some (d1, errs1)
            ∧ inject sampleDoc "/graph" ["m2", "m1"] = some (d2, errs2)
            ∧ errs1 = errs2
            ∧ routesMatchUpToParamOrder d1.paths.paths d2.paths.paths :=
  ⟨by decide,
    inject_order_irrelevant sampleDoc "/graph" ["m1", "m2"] ["m2", "m1"]
      (by decide)⟩

/-- Claim C9: the hardcoded parameter template deserializes successfully
to a Query-variant parameter (required, string schema), so the panic in
add_mandatory_params is never triggered and the non-Query skip branch is
unreachable: on an Item entry every name in the set results in exactly one
pushed parameter — the call succeeds with no error message and the
parameter list grows by exactly the number of names, one appended
parameter per name. -/
theorem template_deserialization_safe :
    parseParameter PARAM_TEMPLATE = some templateParam
      ∧ (∃ p, templateParam = Parameter.Query p
          ∧ p.required = true ∧ p.schema = SchemaKind.string)
      ∧ ∀ (item : PathItem) (reqs : List String),
          add_mandatory_params (ReferenceOr.Item item) reqs =
              some (ReferenceOr.Item
                { item with parameters := item.parameters ++ reqs.map mkParam },
                [])
            ∧ (item.parameters ++ reqs.map mkParam).length
                = item.parameters.length + reqs.length := by
  refine ⟨parse_template, ⟨_, rfl, rfl, rfl⟩, ?_⟩
  intro item reqs
  exact ⟨add_mandatory_params_item item reqs, by simp⟩

/-- Claim C10: injection with an empty mandatory set leaves the document
exactly as it was, whether the entry at the key is an Item, a Reference,
or absent, and the call succeeds. -/
theorem inject_empty_identity (doc : OpenAPI) (E : String) :
    ∃ errs, inject doc E [] = some (doc, errs) := by
  cases hE : lookupKV doc.paths.paths E with
  | none => exact ⟨[], inject_eq_absent doc E [] hE⟩
  | some entry =>
    cases entry with
    | Reference r => exact ⟨_, inject_eq_ref doc E r [] hE⟩
    | Item item =>
      refine ⟨[], ?_⟩
      have hi := inject_eq_item doc E item [] hE
      have hitem :
          ({ item with
             parameters := item.parameters ++ ([] : List String).map mkParam })
            = item := by simp
      rw [hi, hitem, updateKV_self _ _ _ hE]

/-- Modelled from the spec: the build-embedded template asset
`openapiv3.json` (the Template Store's canonical API-description
document) is not among the sources; per the spec its route table carries
the designated route `/graph` as a concrete Item, and we model one
further route that injection leaves untouched. -/
def templateDocument : OpenAPI :=
  { paths :=
      { paths :=
          [ ("/graph",
              ReferenceOr.Item { parameters := [], rest := "graph operations" }),
            ("/version",
              ReferenceOr.Item { parameters := [], rest := "version operations" }) ],
        extensions := [] },
    meta := "policy-engine API" }

/-- The document the transformation produces from `templateDocument` with
the test configuration (expected result, checked by `index_end_to_end`). -/
def endToEndDoc (reqs : List String) : OpenAPI :=
  { paths :=
      { paths :=
          [ ("/test_prefix/graph",
              ReferenceOr.Item
                { parameters := [] ++ reqs.map mkParam,
                  rest := "graph operations" }),
            ("/test_prefix/version",
              ReferenceOr.Item { parameters := [], rest := "version operations" }) ],
        extensions := [] },
    meta := "policy-engine API" }

/-- Claim C3: with the configuration path_prefix = "/test_prefix" and the
mandatory set MARKER1, MARKER2 (in either iteration order), the handler's
transformation of the template document yields a route table containing
key "/test_prefix/graph" whose Item carries exactly the required Query
parameters named MARKER1 and MARKER2 with string schema, while every
other route keeps its entry unchanged under its prefixed key. -/
theorem index_end_to_end (reqs : List String)
    (hp : reqs.Perm ["MARKER1", "MARKER2"]) :
    transformed templateDocument "/test_prefix" reqs = some (endToEndDoc reqs)
      ∧ lookupKV (endToEndDoc reqs).paths.paths "/test_prefix/graph"
          = some (ReferenceOr.Item
              { parameters := [] ++ reqs.map mkParam,
                rest := "graph operations" })
      ∧ ([] ++ reqs.map mkParam : List (ReferenceOr Parameter)).Perm
          [mkParam "MARKER1", mkParam "MARKER2"]
      ∧ lookupKV (endToEndDoc reqs).paths.paths "/test_prefix/version"
          = lookupKV templateDocument.paths.paths "/version"
      ∧ (endToEndDoc reqs).paths.paths.map Prod.fst
          = (templateDocument.paths.paths.map Prod.fst).map
              (fun k => "/test_prefix" ++ k) := by
  have hE : lookupKV templateDocument.paths.paths "/graph"
      = some (ReferenceOr.Item { parameters := [], rest := "graph operations" }) := by
    decide
  have h1 := inject_eq_item templateDocument "/graph"
    { parameters := [], rest := "graph operations" } reqs hE
  refine ⟨?_, rfl, hp.map mkParam, rfl, rfl⟩
  unfold transformed
  rw [h1]
  rfl

/-- Witness for C3 at the concrete iteration order MARKER1, MARKER2. -/
theorem index_end_to_end_witness :
    (["MARKER1", "MARKER2"] : List String).Perm ["MARKER1", "MARKER2"]
      ∧ (transformed templateDocument "/test_prefix" ["MARKER1", "MARKER2"]
            = some (endToEndDoc ["MARKER1", "MARKER2"])
          ∧ lookupKV (endToEndDoc ["MARKER1", "MARKER2"]).paths.paths
              "/test_prefix/graph"
              = some (ReferenceOr.Item
                  { parameters := [] ++ ["MARKER1", "MARKER2"].map mkParam,
                    rest := "graph operations" })
          ∧ ([] ++ ["MARKER1", "MARKER2"].map mkParam :
                List (ReferenceOr Parameter)).Perm
              [mkParam "MARKER1", mkParam "MARKER2"]
          ∧ lookupKV (endToEndDoc ["MARKER1", "MARKER2"]).paths.paths
              "/test_prefix/version"
              = lookupKV templateDocument.paths.paths "/version"
          ∧ (endToEndDoc ["MARKER1", "MARKER2"]).paths.paths.map Prod.fst
              = (templateDocument.paths.paths.map Prod.fst).map
                  (fun k => "/test_prefix" ++ k)) :=
  ⟨List.Perm.refl _, index_end_to_end ["MARKER1", "MARKER2"] (List.Perm.refl _)⟩
